import Mathlib

/-!
# Blogspot backend: users, sessions and posts

A shallow embedding of the Express/MySQL backend:

* `src/database/init.js`  : the schema of the two tables (`createTables`);
* `src/routes/auth.js`    : `POST /register`, `POST /login`;
* `src/routes/posts.js`   : the seven post routes, in registration order;
* `src/server.js`         : the mounting of the two routers.

The relational store is a pair of row lists.  A statement that MySQL would
refuse because of the schema (primary key, `UNIQUE`, foreign key, column
width, under the default strict SQL mode) yields `none`, which the handlers'
`catch` blocks turn into `500 Server error`.  Random and clock inputs
(`uuidv4()`, `bcrypt.genSalt`, `CURRENT_TIMESTAMP`, `Date.now()`) are explicit
inputs of every request (`Env`); `bcrypt.hash`, `bcrypt.compare` and the
signing secret are explicit configuration (`Config`).  SQL `=` and JavaScript
`===` are both string equality; text columns hold any string up to their width;
the database is reachable.  The body fields that are bound as SQL parameters
(`username`, `email`, `title`, `content`) are absent or JSON strings; `password`,
which only ever goes to `bcrypt`, is any JSON value.
-/

set_option maxRecDepth 100000

namespace Blogspot

/-! ## Data model (`src/database/init.js`) -/

/-- Row of table `users`: `id`, `username`, `email`, `password` (the hash), `created_at`. -/
structure UserRow where
  id : String
  username : String
  email : String
  password : String
  created_at : Nat
deriving DecidableEq

/-- Row of table `posts`. -/
structure PostRow where
  id : String
  title : String
  content : String
  author_id : String
  created_at : Nat
  updated_at : Nat
deriving DecidableEq

/-- The relational store: the two tables, rows in insertion order. -/
structure Store where
  users : List UserRow
  posts : List PostRow
deriving DecidableEq

/-- The store right after `createTables` ran on a fresh database. -/
def createTables : Store := ⟨[], []⟩

/-- Column widths of `users`: `id VARCHAR(36)`, `username VARCHAR(50)`,
`email VARCHAR(100)`, `password VARCHAR(100)`. -/
def userFits (r : UserRow) : Prop :=
  r.id.length ≤ 36 ∧ r.username.length ≤ 50 ∧ r.email.length ≤ 100 ∧ r.password.length ≤ 100

instance (r : UserRow) : Decidable (userFits r) := by
  unfold userFits; infer_instance

/-- Widths of the two writable text columns of `posts`: `title VARCHAR(200)`
(characters) and `content TEXT` (at most 65535 bytes). -/
def textFits (title content : String) : Prop :=
  title.length ≤ 200 ∧ content.utf8ByteSize ≤ 65535

instance (t c : String) : Decidable (textFits t c) := by
  unfold textFits; infer_instance

/-- Column widths of `posts`. -/
def postFits (r : PostRow) : Prop :=
  r.id.length ≤ 36 ∧ r.author_id.length ≤ 36 ∧ textFits r.title r.content

instance (r : PostRow) : Decidable (postFits r) := by
  unfold postFits; infer_instance

/-- Usernames are pairwise distinct, and so are emails. -/
def UsersUnique (s : Store) : Prop :=
  (s.users.map (·.username)).Nodup ∧ (s.users.map (·.email)).Nodup

/-- The schema constraints of `createTables`: primary keys, the two `UNIQUE`
columns, the foreign key `posts.author_id → users.id`, and the column widths. -/
def Store.Valid (s : Store) : Prop :=
  (s.users.map (·.id)).Nodup ∧
  (s.users.map (·.username)).Nodup ∧
  (s.users.map (·.email)).Nodup ∧
  (s.posts.map (·.id)).Nodup ∧
  (∀ p ∈ s.posts, p.author_id ∈ s.users.map (·.id)) ∧
  (∀ u ∈ s.users, userFits u) ∧
  (∀ p ∈ s.posts, postFits p)

instance (s : Store) : Decidable s.Valid := by
  unfold Store.Valid; infer_instance

/-! ## SQL statements -/

/-- Statement `INSERT INTO users (id, username, email, password) VALUES (?, ?, ?, ?)`;
`created_at` defaults to the current timestamp of the database. -/
def insertUser (s : Store) (dbNow : Nat) (id username email password : String) :
    Option Store :=
  let r : UserRow := ⟨id, username, email, password, dbNow⟩
  if userFits r ∧ id ∉ s.users.map (·.id) ∧ username ∉ s.users.map (·.username)
      ∧ email ∉ s.users.map (·.email) then
    some { s with users := s.users ++ [r] }
  else none

/-- Statement `INSERT INTO posts (id, title, content, author_id) VALUES (?, ?, ?, ?)`;
both timestamps default to the current timestamp of the database. -/
def insertPost (s : Store) (dbNow : Nat) (id title content author_id : String) :
    Option Store :=
  let r : PostRow := ⟨id, title, content, author_id, dbNow, dbNow⟩
  if postFits r ∧ id ∉ s.posts.map (·.id) ∧ author_id ∈ s.users.map (·.id) then
    some { s with posts := s.posts ++ [r] }
  else none

/-- One row under `UPDATE posts SET title = ?, content = ? WHERE id = ?`:
`updated_at` is touched only when the row really changes. -/
def touch (dbNow : Nat) (id title content : String) (p : PostRow) : PostRow :=
  if p.id = id then
    if p.title = title ∧ p.content = content then p
    else { p with title := title, content := content, updated_at := dbNow }
  else p

/-- Statement `UPDATE posts SET title = ?, content = ? WHERE id = ?`. -/
def updatePost (s : Store) (dbNow : Nat) (id title content : String) : Option Store :=
  if (∃ p ∈ s.posts, p.id = id) ∧ ¬ textFits title content then none
  else some { s with posts := s.posts.map (touch dbNow id title content) }

/-- Statement `DELETE FROM posts WHERE id = ?`. -/
def deletePost (s : Store) (id : String) : Store :=
  { s with posts := s.posts.filter (fun p => decide (p.id ≠ id)) }

/-- Result of `SELECT * FROM posts WHERE id = ?`. -/
def selectPost (s : Store) (id : String) : List PostRow :=
  s.posts.filter (fun p => decide (p.id = id))

/-- A post joined with its author: the seven selected columns. -/
structure JoinedPost where
  id : String
  title : String
  content : String
  created_at : Nat
  updated_at : Nat
  author_id : String
  author_name : String
deriving DecidableEq

/-- The select list `p.id, p.title, ..., p.author_id, u.username as author_name`. -/
def joinRow (p : PostRow) (u : UserRow) : JoinedPost :=
  ⟨p.id, p.title, p.content, p.created_at, p.updated_at, p.author_id, u.username⟩

/-- The post columns of a joined row. -/
def JoinedPost.toPost (r : JoinedPost) : PostRow :=
  ⟨r.id, r.title, r.content, r.author_id, r.created_at, r.updated_at⟩

/-- Rows of `FROM posts p JOIN users u ON p.author_id = u.id`. -/
def joinPosts (s : Store) : List JoinedPost :=
  s.posts.flatMap (fun p =>
    (s.users.filter (fun u => decide (p.author_id = u.id))).map (joinRow p))

/-- The order of `ORDER BY p.created_at DESC`: the later row comes first. -/
def createdDesc (a b : JoinedPost) : Prop := a.created_at ≥ b.created_at

instance : DecidableRel createdDesc := fun a b => by
  unfold createdDesc; infer_instance

instance : IsTotal JoinedPost createdDesc :=
  ⟨fun a b => Nat.le_total b.created_at a.created_at⟩

instance : IsTrans JoinedPost createdDesc :=
  ⟨fun _ _ _ hab hbc => Nat.le_trans hbc hab⟩

/-- Clause `ORDER BY p.created_at DESC` (rows with equal time keep their order). -/
def orderByCreatedDesc (rows : List JoinedPost) : List JoinedPost :=
  rows.insertionSort createdDesc

/-! ## Requests, responses, configuration -/

/-- The identity claims `id`, `username`, `email`. -/
structure Identity where
  id : String
  username : String
  email : String
deriving DecidableEq

/-- A signed token: its claims, issue and expiry time (seconds) and the key that signed it. -/
structure Token where
  claims : Identity
  iat : Nat
  exp : Nat
  key : String
deriving DecidableEq

/-- Response bodies: `{ message }`, `{ token, user }`, one joined post, a list of joined
posts, `undefined` (from `res.json(rows[0])` on no row), the text of `res.send`, the body of
the middleware's refusal (its wording is not in the sources), and the framework's answer to
a request that no route handles. -/
inductive Body where
  | message (m : String)
  | session (token : Token) (user : Identity)
  | post (p : JoinedPost)
  | posts (ps : List JoinedPost)
  | undefined
  | text (t : String)
  | denied
  | unrouted
deriving DecidableEq

/-- An HTTP response: status code and body. -/
structure Response where
  status : Nat
  body : Body
deriving DecidableEq

/-- Process configuration: `bcrypt.hash`, `bcrypt.compare` and `process.env.JWT_SECRET`. -/
structure Config where
  hash : String → String → String
  compare : String → String → Bool
  jwtSecret : Option String

/-- Inputs drawn during one request: `uuidv4()`, the salt of `bcrypt.genSalt(10)`,
the database clock and the process clock (seconds). -/
structure Env where
  uuid : String
  salt : String
  dbNow : Nat
  now : Nat

/-- HTTP methods used by the routers. -/
inductive Method where
  | GET | POST | PUT | DELETE
deriving DecidableEq

/-- A JSON value of the body, as far as the handlers can tell values apart: `null` (also
an absent field), a boolean, a number (only whether it is zero matters), a string, or an
array or object. -/
inductive JsValue where
  | null
  | bool (b : Bool)
  | num (n : Int)
  | str (s : String)
  | compound
deriving DecidableEq

/-- JavaScript `!x` for a JSON value. -/
def JsValue.falsy : JsValue → Bool
  | .null => true
  | .bool b => !b
  | .num n => decide (n = 0)
  | .str v => decide (v = "")
  | .compound => false

/-- A request: method, path segments, bearer token and JSON body fields. -/
structure Request where
  method : Method
  path : List String
  token : Option Token
  username : Option String
  email : Option String
  password : JsValue
  title : Option String
  content : Option String

/-- JavaScript `!x` for a body field that is absent or a string. -/
def falsy : Option String → Bool
  | none => true
  | some v => decide (v = "")

/-- Value of a body field (absent fields read as the empty string; never used when falsy). -/
def val (x : Option String) : String := x.getD ""

/-- Call `await bcrypt.hash(password, salt)`: the promise is rejected, and the `await`
throws, unless `password` is a string. -/
def bcryptHash (cfg : Config) (password : JsValue) (salt : String) : Option String :=
  match password with
  | .str pw => some (cfg.hash pw salt)
  | _ => none

/-- Call `await bcrypt.compare(password, hash)`: the promise is rejected, and the `await`
throws, unless `password` is a string. -/
def bcryptCompare (cfg : Config) (password : JsValue) (hash : String) : Option Bool :=
  match password with
  | .str pw => some (cfg.compare pw hash)
  | _ => none

/-- Expression `process.env.JWT_SECRET || 'your_jwt_secret'`. -/
def secret (cfg : Config) : String :=
  match cfg.jwtSecret with
  | none => "your_jwt_secret"
  | some k => if k = "" then "your_jwt_secret" else k

/-- Call `jwt.sign(claims, secret, { expiresIn: '24h' })`. -/
def sign (cfg : Config) (env : Env) (claims : Identity) : Token :=
  ⟨claims, env.now, env.now + 86400, secret cfg⟩

/-- Response `res.status(code).json({ message })`. -/
def msg (code : Nat) (m : String) : Response := ⟨code, .message m⟩

/-- Response `res.json(rows[0])` with the given status (`rows[0]` is `undefined` on no row). -/
def firstRow (code : Nat) (rows : List JoinedPost) : Response :=
  match rows with
  | [] => ⟨code, .undefined⟩
  | r :: _ => ⟨code, .post r⟩

/-! ## Credential routes (`src/routes/auth.js`) -/

/-- Handler of `router.post('/register')`; a throw of `bcrypt.hash` or of the insert is
caught and answered `500 Server error`. -/
def register (cfg : Config) (env : Env) (s : Store) (username email : Option String)
    (password : JsValue) : Response × Store :=
  if falsy username || falsy email || password.falsy then
    (msg 400 "Please enter all fields", s)
  else
    let existingUsers :=
      s.users.filter (fun u => decide (u.email = val email ∨ u.username = val username))
    if existingUsers.length > 0 then
      (msg 400 "User already exists", s)
    else
      let id := env.uuid
      match bcryptHash cfg password env.salt with
      | none => (msg 500 "Server error", s)
      | some hashedPassword =>
        match insertUser s env.dbNow id (val username) (val email) hashedPassword with
        | none => (msg 500 "Server error", s)
        | some s' =>
          let token := sign cfg env ⟨id, val username, val email⟩
          (⟨201, .session token ⟨id, val username, val email⟩⟩, s')

/-- Handler of `router.post('/login')`; a throw of `bcrypt.compare` is caught and
answered `500 Server error`. -/
def login (cfg : Config) (env : Env) (s : Store) (email : Option String)
    (password : JsValue) : Response × Store :=
  if falsy email || password.falsy then
    (msg 400 "Please enter all fields", s)
  else
    match s.users.filter (fun u => decide (u.email = val email)) with
    | [] => (msg 400 "Invalid credentials", s)
    | user :: _ =>
      match bcryptCompare cfg password user.password with
      | none => (msg 500 "Server error", s)
      | some isMatch =>
        if !isMatch then
          (msg 400 "Invalid credentials", s)
        else
          let token := sign cfg env ⟨user.id, user.username, user.email⟩
          (⟨200, .session token ⟨user.id, user.username, user.email⟩⟩, s)

/-! ## Authorization middleware -/

/-- Modelled from the spec: the middleware of `src/middleware/auth.js`, which is not part
of the sources.  A bearer token is accepted when it was signed with the configured secret
and has not expired; the identity is then its claims.  Anything else is answered `401`. -/
def auth (cfg : Config) (env : Env) (token : Option Token) : Except Response Identity :=
  match token with
  | none => .error ⟨401, .denied⟩
  | some t =>
    if t.key = secret cfg ∧ env.now < t.exp then .ok t.claims
    else .error ⟨401, .denied⟩

/-! ## Post routes (`src/routes/posts.js`) -/

/-- Handler of `router.get('/')`. -/
def getPosts (s : Store) : Response × Store :=
  (⟨200, .posts (orderByCreatedDesc (joinPosts s))⟩, s)

/-- Handler of `router.get('/:id')`. -/
def getPostById (s : Store) (id : String) : Response × Store :=
  let posts := (joinPosts s).filter (fun r => decide (r.id = id))
  if posts.length = 0 then (msg 404 "Post not found", s)
  else (firstRow 200 posts, s)

/-- Handler of `router.get('/user', auth, ...)`, after the middleware set `req.user`. -/
def getMyPosts (s : Store) (user : Identity) : Response × Store :=
  (⟨200, .posts (orderByCreatedDesc
      ((joinPosts s).filter (fun r => decide (r.author_id = user.id))))⟩, s)

/-- Handler of `router.post('/', auth, ...)`, after the middleware set `req.user`. -/
def createPost (env : Env) (s : Store) (user : Identity) (title content : Option String) :
    Response × Store :=
  if falsy title || falsy content then
    (msg 400 "Please enter all fields", s)
  else
    let id := env.uuid
    match insertPost s env.dbNow id (val title) (val content) user.id with
    | none => (msg 500 "Server error", s)
    | some s' =>
      (firstRow 201 ((joinPosts s').filter (fun r => decide (r.id = id))), s')

/-- Handler of `router.get('/user/:userId')`. -/
def getPostsByUser (s : Store) (userId : String) : Response × Store :=
  (⟨200, .posts (orderByCreatedDesc
      ((joinPosts s).filter (fun r => decide (r.author_id = userId))))⟩, s)

/-- Handler of `router.put('/:id', auth, ...)`, after the middleware set `req.user`. -/
def updatePostById (env : Env) (s : Store) (user : Identity) (id : String)
    (title content : Option String) : Response × Store :=
  if falsy title || falsy content then
    (msg 400 "Please enter all fields", s)
  else
    match selectPost s id with
    | [] => (msg 404 "Post not found", s)
    | p :: _ =>
      if p.author_id ≠ user.id then
        (msg 403 "Not authorized to update this post", s)
      else
        match updatePost s env.dbNow id (val title) (val content) with
        | none => (msg 500 "Server error", s)
        | some s' =>
          (firstRow 200 ((joinPosts s').filter (fun r => decide (r.id = id))), s')

/-- Handler of `router.delete('/:id', auth, ...)`, after the middleware set `req.user`. -/
def deletePostById (s : Store) (user : Identity) (id : String) : Response × Store :=
  match selectPost s id with
  | [] => (msg 404 "Post not found", s)
  | p :: _ =>
    if p.author_id ≠ user.id then
      (msg 403 "Not authorized to delete this post", s)
    else
      (msg 200 "Post deleted", deletePost s id)

/-! ## Routing (`express.Router`, `src/server.js`) -/

/-- A segment of a route path: a literal or a named parameter such as `:id`. -/
inductive Seg where
  | lit (s : String)
  | param
deriving DecidableEq

/-- Match a route path against the request path; the result lists the parameter values.
A parameter matches one non-empty segment. -/
def matchPath : List Seg → List String → Option (List String)
  | [], [] => some []
  | Seg.lit l :: ps, x :: xs => if x = l then matchPath ps xs else none
  | Seg.param :: ps, x :: xs => if x = "" then none else (matchPath ps xs).map (x :: ·)
  | _, _ => none

/-- A registered route: method, path, and what runs on a match (given the parameters). -/
structure Route where
  method : Method
  path : List Seg
  run : Config → Env → Store → Request → List String → Response × Store

/-- Run `handler` behind the `auth` middleware. -/
def guarded (cfg : Config) (env : Env) (s : Store) (req : Request)
    (handler : Identity → Response × Store) : Response × Store :=
  match auth cfg env req.token with
  | .error r => (r, s)
  | .ok user => handler user

/-- The routes of `src/routes/posts.js`, in the order in which they are registered. -/
def postRoutes : List Route :=
  [ ⟨.GET, [], fun _ _ s _ _ => getPosts s⟩,
    ⟨.GET, [.param], fun _ _ s _ ps => getPostById s (ps.headD "")⟩,
    ⟨.GET, [.lit "user"], fun cfg env s req _ => guarded cfg env s req (getMyPosts s)⟩,
    ⟨.POST, [], fun cfg env s req _ =>
      guarded cfg env s req (fun u => createPost env s u req.title req.content)⟩,
    ⟨.GET, [.lit "user", .param], fun _ _ s _ ps => getPostsByUser s (ps.headD "")⟩,
    ⟨.PUT, [.param], fun cfg env s req ps =>
      guarded cfg env s req
        (fun u => updatePostById env s u (ps.headD "") req.title req.content)⟩,
    ⟨.DELETE, [.param], fun cfg env s req ps =>
      guarded cfg env s req (fun u => deletePostById s u (ps.headD ""))⟩ ]

/-- The routes of `src/routes/auth.js`. -/
def authRoutes : List Route :=
  [ ⟨.POST, [.lit "register"], fun cfg env s req _ =>
      register cfg env s req.username req.email req.password⟩,
    ⟨.POST, [.lit "login"], fun cfg env s req _ => login cfg env s req.email req.password⟩ ]

/-- Dispatch inside a router: routes are tried in registration order and the first whose
method and path match answers (no handler of this code base calls `next`). -/
def dispatch (routes : List Route) (cfg : Config) (env : Env) (s : Store) (req : Request)
    (rest : List String) : Option (Response × Store) :=
  match routes with
  | [] => none
  | r :: rs =>
    if r.method = req.method then
      match matchPath r.path rest with
      | some ps => some (r.run cfg env s req ps)
      | none => dispatch rs cfg env s req rest
    else dispatch rs cfg env s req rest

/-- Call `app.use('/api/<base>', router)`: requests under the mount point go to the router
with the rest of the path; `none` when nothing in the router answers. -/
def mount (base : String) (routes : List Route) (cfg : Config) (env : Env) (s : Store)
    (req : Request) : Option (Response × Store) :=
  match req.path with
  | a :: b :: rest =>
    if a = "api" ∧ b = base then dispatch routes cfg env s req rest else none
  | _ => none

/-- The application of `src/server.js`: the two routers under `/api/auth` and `/api/posts`,
then the default route; a request nothing answers gets the framework's `404`. -/
def app (cfg : Config) (env : Env) (s : Store) (req : Request) : Response × Store :=
  match mount "auth" authRoutes cfg env s req with
  | some r => r
  | none =>
    match mount "posts" postRoutes cfg env s req with
    | some r => r
    | none =>
      if req.method = .GET ∧ req.path = [] then (⟨200, .text "Blogspot API is running"⟩, s)
      else (⟨404, .unrouted⟩, s)

/-- Serve a sequence of requests one at a time, each with its own drawn inputs. -/
def serve (cfg : Config) (s : Store) : List (Env × Request) → Store
  | [] => s
  | (env, req) :: rest => serve cfg (app cfg env s req).2 rest

/-! ## Concrete data used to instantiate the theorems -/

/-- A toy configuration: the hash is the marked password, no secret is configured. -/
def demoCfg : Config := ⟨fun pw _ => "#" ++ pw, fun pw h => decide (h = "#" ++ pw), none⟩

/-- Drawn inputs of a demonstration request. -/
def demoEnv : Env := ⟨"p1", "s", 5, 7⟩

/-- The user row of alice. -/
def alice : UserRow := ⟨"u1", "alice", "a@x.com", "#pw123456", 1⟩

/-- The user row of bob. -/
def bob : UserRow := ⟨"u2", "bob", "b@x.com", "#hunter2", 2⟩

/-- A post of alice. -/
def hello : PostRow := ⟨"p0", "Hi", "World", "u1", 3, 3⟩

/-- A store with two users and one post. -/
def demoStore : Store := ⟨[alice, bob], [hello]⟩

/-- A later post, of bob. -/
def news : PostRow := ⟨"p1", "News", "From bob", "u2", 8, 8⟩

/-- A post of alice, created between the other two and edited once. -/
def notes : PostRow := ⟨"p2", "Notes", "More", "u1", 5, 6⟩

/-- A store with two users and three posts whose creation times are not in order. -/
def busyStore : Store := ⟨[alice, bob], [hello, news, notes]⟩

/-- The identity of alice. -/
def aliceId : Identity := ⟨"u1", "alice", "a@x.com"⟩

/-- The identity of bob. -/
def bobId : Identity := ⟨"u2", "bob", "b@x.com"⟩

/-- Drawn inputs of a request that creates a post: a version 4 uuid, a salt, two clocks. -/
def postEnv : Env := ⟨"123e4567-e89b-42d3-a456-426614174000", "s", 9, 9⟩

/-- A title of 201 characters. -/
def longTitle : String := String.mk (List.replicate 201 'a')

/-! ## Lemmas on keyed lists and on the join -/

theorem filter_key_singleton {α : Type} (f : α → String) (l : List α) (a : α)
    (hnd : (l.map f).Nodup) (ha : a ∈ l) :
    l.filter (fun x => decide (f x = f a)) = [a] := by
  induction l with
  | nil => cases ha
  | cons b t ih =>
    rw [List.map_cons, List.nodup_cons] at hnd
    rcases List.mem_cons.mp ha with hab | hat
    · subst hab
      have hnone : t.filter (fun x => decide (f x = f a)) = [] := by
        rw [List.filter_eq_nil_iff]
        intro x hx hfx
        exact hnd.1 (List.mem_map.mpr ⟨x, hx, of_decide_eq_true hfx⟩)
      simp [List.filter_cons, hnone]
    · have hne : f b ≠ f a := by
        intro h
        exact hnd.1 (List.mem_map.mpr ⟨a, hat, h.symm⟩)
      simp [List.filter_cons, hne, ih hnd.2 hat]

theorem filter_key_empty {α : Type} (f : α → String) (l : List α) (k : String)
    (hk : ∀ x ∈ l, f x ≠ k) :
    l.filter (fun x => decide (f x = k)) = [] := by
  rw [List.filter_eq_nil_iff]
  intro x hx hfx
  exact hk x hx (of_decide_eq_true hfx)

theorem selectPost_mem (s : Store) (P : PostRow) (hv : s.Valid) (hP : P ∈ s.posts) :
    selectPost s P.id = [P] :=
  filter_key_singleton PostRow.id s.posts P hv.2.2.2.1 hP

/-! ## Lemmas on the join of posts with their authors -/

theorem author_singleton (s : Store) (hv : s.Valid) (u : UserRow) (hu : u ∈ s.users)
    (author_id : String) (h : u.id = author_id) :
    s.users.filter (fun x => decide (author_id = x.id)) = [u] := by
  have h1 := filter_key_singleton UserRow.id s.users u hv.1 hu
  rw [← h1, ← h]
  apply List.filter_congr
  intro x _
  simp [eq_comm]

theorem join_filter_id (us : List UserRow) (ps : List PostRow) (id : String) :
    (ps.flatMap (fun p =>
        (us.filter (fun u => decide (p.author_id = u.id))).map (joinRow p))).filter
        (fun r => decide (r.id = id))
      = (ps.filter (fun p => decide (p.id = id))).flatMap (fun p =>
        (us.filter (fun u => decide (p.author_id = u.id))).map (joinRow p)) := by
  induction ps with
  | nil => rfl
  | cons p t ih =>
    rw [List.flatMap_cons, List.filter_append, ih, List.filter_cons]
    by_cases hp : p.id = id
    · have hall : ((us.filter (fun u => decide (p.author_id = u.id))).map (joinRow p)).filter
          (fun r => decide (r.id = id))
          = (us.filter (fun u => decide (p.author_id = u.id))).map (joinRow p) := by
        rw [List.filter_eq_self]
        intro r hr
        obtain ⟨u, _, rfl⟩ := List.mem_map.mp hr
        exact decide_eq_true hp
      rw [hall, if_pos (decide_eq_true hp), List.flatMap_cons]
    · have hnone : ((us.filter (fun u => decide (p.author_id = u.id))).map (joinRow p)).filter
          (fun r => decide (r.id = id)) = [] := by
        rw [List.filter_eq_nil_iff]
        intro r hr
        obtain ⟨u, _, rfl⟩ := List.mem_map.mp hr
        simpa [joinRow] using hp
      rw [hnone, List.nil_append, if_neg (by simpa using hp)]

theorem joinPosts_filter_id (s : Store) (id : String) (P : PostRow) (u : UserRow)
    (hsel : selectPost s id = [P])
    (hus : s.users.filter (fun x => decide (P.author_id = x.id)) = [u]) :
    (joinPosts s).filter (fun r => decide (r.id = id)) = [joinRow P u] := by
  unfold joinPosts
  rw [join_filter_id]
  unfold selectPost at hsel
  rw [hsel]
  simp [hus]

theorem joinPosts_filter_id_none (s : Store) (id : String) (hsel : selectPost s id = []) :
    (joinPosts s).filter (fun r => decide (r.id = id)) = [] := by
  unfold joinPosts
  rw [join_filter_id]
  unfold selectPost at hsel
  rw [hsel]
  rfl

theorem joinPosts_author (s : Store) (r : JoinedPost) (hr : r ∈ joinPosts s) :
    ∃ u ∈ s.users, u.id = r.author_id ∧ r.author_name = u.username := by
  unfold joinPosts at hr
  obtain ⟨p, _, hrp⟩ := List.mem_flatMap.mp hr
  obtain ⟨u, hu, rfl⟩ := List.mem_map.mp hrp
  obtain ⟨hu1, hu2⟩ := List.mem_filter.mp hu
  exact ⟨u, hu1, (of_decide_eq_true hu2).symm, rfl⟩

theorem joinPosts_toPost (s : Store) (hv : s.Valid) :
    (joinPosts s).map JoinedPost.toPost = s.posts := by
  have key : ∀ ps : List PostRow, (∀ p ∈ ps, p.author_id ∈ s.users.map (·.id)) →
      (ps.flatMap (fun p =>
        (s.users.filter (fun u => decide (p.author_id = u.id))).map (joinRow p))).map
        JoinedPost.toPost = ps := by
    intro ps
    induction ps with
    | nil => intro _; rfl
    | cons p t ih =>
      intro h
      obtain ⟨u, hu, hup⟩ := List.mem_map.mp (h p (List.mem_cons_self _ _))
      rw [List.flatMap_cons, List.map_append, ih (fun q hq => h q (List.mem_cons_of_mem _ hq)),
        author_singleton s hv u hu p.author_id hup]
      rfl
  exact key s.posts hv.2.2.2.2.1

/-! ## Lemmas on the update statement -/

theorem touch_id (dbNow : Nat) (id title content : String) (p : PostRow) :
    (touch dbNow id title content p).id = p.id := by
  unfold touch
  split
  · split <;> rfl
  · rfl

theorem touch_author (dbNow : Nat) (id title content : String) (p : PostRow) :
    (touch dbNow id title content p).author_id = p.author_id := by
  unfold touch
  split
  · split <;> rfl
  · rfl

theorem touch_created (dbNow : Nat) (id title content : String) (p : PostRow) :
    (touch dbNow id title content p).created_at = p.created_at := by
  unfold touch
  split
  · split <;> rfl
  · rfl

theorem touch_other (dbNow : Nat) (id title content : String) (p : PostRow) (h : p.id ≠ id) :
    touch dbNow id title content p = p := by
  unfold touch
  rw [if_neg h]

theorem touch_text (dbNow : Nat) (title content : String) (p : PostRow) :
    (touch dbNow p.id title content p).title = title
      ∧ (touch dbNow p.id title content p).content = content := by
  unfold touch
  rw [if_pos rfl]
  split
  · next h => exact h
  · exact ⟨rfl, rfl⟩

theorem touch_updated (dbNow : Nat) (title content : String) (p : PostRow) :
    (touch dbNow p.id title content p).updated_at
      = if p.title = title ∧ p.content = content then p.updated_at else dbNow := by
  unfold touch
  rw [if_pos rfl]
  split <;> rfl

theorem filter_id_map_touch (dbNow : Nat) (id title content k : String) (ps : List PostRow) :
    (ps.map (touch dbNow id title content)).filter (fun p => decide (p.id = k))
      = (ps.filter (fun p => decide (p.id = k))).map (touch dbNow id title content) := by
  induction ps with
  | nil => rfl
  | cons p t ih =>
    rw [List.map_cons, List.filter_cons, List.filter_cons, ih, touch_id]
    split <;> rfl

/-! ## How a request may change the store -/

/-- A relation between the store before and after a request holds for a route when it
holds for every run of the route. -/
def Route.Respects (R : Store → Store → Prop) (r : Route) : Prop :=
  ∀ cfg env s req ps, R s (r.run cfg env s req ps).2

theorem dispatch_respects (R : Store → Store → Prop) (routes : List Route)
    (h : ∀ r ∈ routes, r.Respects R) (cfg : Config) (env : Env) (s : Store) (req : Request)
    (rest : List String) (out : Response × Store)
    (hd : dispatch routes cfg env s req rest = some out) : R s out.2 := by
  induction routes with
  | nil => simp [dispatch] at hd
  | cons r rs ih =>
    have hrs : ∀ r' ∈ rs, r'.Respects R := fun r' hr' => h r' (List.mem_cons_of_mem _ hr')
    unfold dispatch at hd
    split at hd
    · split at hd
      · cases hd
        exact h r (List.mem_cons_self _ _) cfg env s req _
      · exact ih hrs hd
    · exact ih hrs hd

theorem mount_respects (R : Store → Store → Prop) (base : String) (routes : List Route)
    (h : ∀ r ∈ routes, r.Respects R) (cfg : Config) (env : Env) (s : Store) (req : Request)
    (out : Response × Store) (hm : mount base routes cfg env s req = some out) :
    R s out.2 := by
  unfold mount at hm
  split at hm
  · split at hm
    · exact dispatch_respects R routes h cfg env s req _ out hm
    · cases hm
  · cases hm

theorem app_respects (R : Store → Store → Prop) (hrefl : ∀ s, R s s)
    (hA : ∀ r ∈ authRoutes, r.Respects R) (hP : ∀ r ∈ postRoutes, r.Respects R)
    (cfg : Config) (env : Env) (s : Store) (req : Request) :
    R s (app cfg env s req).2 := by
  unfold app
  split
  · next r hr => exact mount_respects R "auth" authRoutes hA cfg env s req r hr
  · split
    · next r hr => exact mount_respects R "posts" postRoutes hP cfg env s req r hr
    · split <;> exact hrefl s

theorem guarded_respects (R : Store → Store → Prop) (cfg : Config) (env : Env) (s : Store)
    (req : Request) (handler : Identity → Response × Store) (hrefl : R s s)
    (h : ∀ u, R s (handler u).2) : R s (guarded cfg env s req handler).2 := by
  unfold guarded
  split
  · exact hrefl
  · exact h _

/-- The only change a request can make to `users`: nothing, or one appended row that is
new in `id`, `username` and `email`. -/
def UsersStep (s s' : Store) : Prop :=
  s'.users = s.users ∨
    ∃ r, s'.users = s.users ++ [r] ∧ r.id ∉ s.users.map (·.id)
      ∧ r.username ∉ s.users.map (·.username) ∧ r.email ∉ s.users.map (·.email)

theorem insertUser_some (s s' : Store) (dbNow : Nat) (id username email password : String)
    (h : insertUser s dbNow id username email password = some s') :
    s' = { s with users := s.users ++ [⟨id, username, email, password, dbNow⟩] }
      ∧ userFits ⟨id, username, email, password, dbNow⟩
      ∧ id ∉ s.users.map (·.id) ∧ username ∉ s.users.map (·.username)
      ∧ email ∉ s.users.map (·.email) := by
  unfold insertUser at h
  simp only at h
  split at h
  · next hc =>
    cases h
    exact ⟨rfl, hc⟩
  · cases h

theorem insertPost_some (s s' : Store) (dbNow : Nat) (id title content author_id : String)
    (h : insertPost s dbNow id title content author_id = some s') :
    s' = { s with posts := s.posts ++ [⟨id, title, content, author_id, dbNow, dbNow⟩] }
      ∧ postFits ⟨id, title, content, author_id, dbNow, dbNow⟩
      ∧ id ∉ s.posts.map (·.id) ∧ author_id ∈ s.users.map (·.id) := by
  unfold insertPost at h
  simp only at h
  split at h
  · next hc =>
    cases h
    exact ⟨rfl, hc⟩
  · cases h

theorem updatePost_some (s s' : Store) (dbNow : Nat) (id title content : String)
    (h : updatePost s dbNow id title content = some s') :
    s' = { s with posts := s.posts.map (touch dbNow id title content) }
      ∧ ((∃ p ∈ s.posts, p.id = id) → textFits title content) := by
  unfold updatePost at h
  split at h
  · cases h
  · next hc =>
    cases h
    refine ⟨rfl, fun hex => ?_⟩
    by_contra hfit
    exact hc ⟨hex, hfit⟩

theorem register_usersStep (cfg : Config) (env : Env) (s : Store)
    (username email : Option String) (password : JsValue) :
    UsersStep s (register cfg env s username email password).2 := by
  unfold register
  split
  · exact Or.inl rfl
  · simp only
    split
    · exact Or.inl rfl
    · split
      · exact Or.inl rfl
      · split
        · exact Or.inl rfl
        · next s' hins =>
          obtain ⟨hs', _, h1, h2, h3⟩ := insertUser_some _ _ _ _ _ _ _ hins
          exact Or.inr ⟨_, by rw [hs'], h1, h2, h3⟩

theorem login_store (cfg : Config) (env : Env) (s : Store) (email : Option String)
    (password : JsValue) : (login cfg env s email password).2 = s := by
  unfold login
  split
  · rfl
  · split
    · rfl
    · split
      · rfl
      · split <;> rfl

theorem getPostById_store (s : Store) (id : String) : (getPostById s id).2 = s := by
  unfold getPostById
  simp only
  split <;> rfl

theorem createPost_users (env : Env) (s : Store) (user : Identity)
    (title content : Option String) :
    (createPost env s user title content).2.users = s.users := by
  unfold createPost
  split
  · rfl
  · simp only
    split
    · rfl
    · next s' hins =>
      rw [(insertPost_some _ _ _ _ _ _ _ hins).1]

theorem updatePostById_users (env : Env) (s : Store) (user : Identity) (id : String)
    (title content : Option String) :
    (updatePostById env s user id title content).2.users = s.users := by
  unfold updatePostById
  split
  · rfl
  · split
    · rfl
    · split
      · rfl
      · split
        · rfl
        · next s' hup =>
          rw [(updatePost_some _ _ _ _ _ _ hup).1]

theorem deletePostById_users (s : Store) (user : Identity) (id : String) :
    (deletePostById s user id).2.users = s.users := by
  unfold deletePostById
  split
  · rfl
  · split <;> rfl

theorem app_usersStep (cfg : Config) (env : Env) (s : Store) (req : Request) :
    UsersStep s (app cfg env s req).2 := by
  apply app_respects UsersStep (fun s => Or.inl rfl)
  · intro r hr
    simp only [authRoutes, List.mem_cons, List.mem_singleton, List.not_mem_nil, or_false] at hr
    rcases hr with rfl | rfl
    · intro cfg env s req ps
      exact register_usersStep cfg env s _ _ _
    · intro cfg env s req ps
      exact Or.inl (by rw [login_store])
  · intro r hr
    simp only [postRoutes, List.mem_cons, List.mem_singleton, List.not_mem_nil, or_false] at hr
    rcases hr with rfl | rfl | rfl | rfl | rfl | rfl | rfl <;> intro cfg env s req ps
    · exact Or.inl rfl
    · exact Or.inl (by rw [getPostById_store])
    · exact guarded_respects UsersStep cfg env s req _ (Or.inl rfl) (fun u => Or.inl rfl)
    · exact guarded_respects UsersStep cfg env s req _ (Or.inl rfl)
        (fun u => Or.inl (createPost_users env s u _ _))
    · exact Or.inl rfl
    · exact guarded_respects UsersStep cfg env s req _ (Or.inl rfl)
        (fun u => Or.inl (updatePostById_users env s u _ _ _))
    · exact guarded_respects UsersStep cfg env s req _ (Or.inl rfl)
        (fun u => Or.inl (deletePostById_users s u _))

theorem UsersStep.mem {s s' : Store} (h : UsersStep s s') {u : UserRow} (hu : u ∈ s.users) :
    u ∈ s'.users := by
  rcases h with h | ⟨r, h, _⟩
  · rw [h]; exact hu
  · rw [h]; exact List.mem_append_left _ hu

theorem serve_users_mem (cfg : Config) (reqs : List (Env × Request)) (s : Store) (u : UserRow)
    (hu : u ∈ s.users) : u ∈ (serve cfg s reqs).users := by
  induction reqs generalizing s with
  | nil => exact hu
  | cons e rest ih =>
    obtain ⟨env, req⟩ := e
    exact ih _ ((app_usersStep cfg env s req).mem hu)

/-! ## The schema constraints hold in every reachable store -/

theorem nodup_map_append_singleton {α : Type} (f : α → String) (l : List α) (a : α)
    (hl : (l.map f).Nodup) (ha : f a ∉ l.map f) : ((l ++ [a]).map f).Nodup := by
  rw [List.map_append, List.nodup_append]
  refine ⟨hl, List.nodup_singleton _, ?_⟩
  intro x hx hxa
  rw [List.map_singleton, List.mem_singleton] at hxa
  exact ha (hxa ▸ hx)

theorem UsersStep.unique {s s' : Store} (h : UsersStep s s') (hs : UsersUnique s) :
    UsersUnique s' := by
  rcases h with h | ⟨r, h, _, hname, hmail⟩
  · unfold UsersUnique
    rw [h]
    exact hs
  · unfold UsersUnique
    rw [h]
    exact ⟨nodup_map_append_singleton UserRow.username _ _ hs.1 hname,
      nodup_map_append_singleton UserRow.email _ _ hs.2 hmail⟩

theorem register_check_suffices (s : Store) (username email : String)
    (h : ¬ (s.users.filter
      (fun u => decide (u.email = email ∨ u.username = username))).length > 0) :
    username ∉ s.users.map (·.username) ∧ email ∉ s.users.map (·.email) := by
  constructor
  · intro hmem
    obtain ⟨u, hu, hun⟩ := List.mem_map.mp hmem
    exact h (List.length_pos_of_mem (List.mem_filter.mpr ⟨hu, decide_eq_true (Or.inr hun)⟩))
  · intro hmem
    obtain ⟨u, hu, hue⟩ := List.mem_map.mp hmem
    exact h (List.length_pos_of_mem (List.mem_filter.mpr ⟨hu, decide_eq_true (Or.inl hue)⟩))

theorem insertUser_valid (s s' : Store) (dbNow : Nat) (id username email password : String)
    (hv : s.Valid) (h : insertUser s dbNow id username email password = some s') :
    s'.Valid := by
  obtain ⟨hs', hfit, hid, hname, hmail⟩ := insertUser_some _ _ _ _ _ _ _ h
  obtain ⟨v1, v2, v3, v4, v5, v6, v7⟩ := hv
  subst hs'
  refine ⟨nodup_map_append_singleton UserRow.id _ _ v1 hid,
    nodup_map_append_singleton UserRow.username _ _ v2 hname,
    nodup_map_append_singleton UserRow.email _ _ v3 hmail, v4, ?_, ?_, v7⟩
  · intro p hp
    rw [List.map_append]
    exact List.mem_append_left _ (v5 p hp)
  · intro u hu
    rcases List.mem_append.mp hu with hu | hu
    · exact v6 u hu
    · rw [List.mem_singleton] at hu
      rw [hu]
      exact hfit

theorem insertPost_valid (s s' : Store) (dbNow : Nat) (id title content author_id : String)
    (hv : s.Valid) (h : insertPost s dbNow id title content author_id = some s') :
    s'.Valid := by
  obtain ⟨hs', hfit, hid, hfk⟩ := insertPost_some _ _ _ _ _ _ _ h
  obtain ⟨v1, v2, v3, v4, v5, v6, v7⟩ := hv
  subst hs'
  refine ⟨v1, v2, v3, nodup_map_append_singleton PostRow.id _ _ v4 hid, ?_, v6, ?_⟩
  · intro p hp
    rcases List.mem_append.mp hp with hp | hp
    · exact v5 p hp
    · rw [List.mem_singleton] at hp
      rw [hp]
      exact hfk
  · intro p hp
    rcases List.mem_append.mp hp with hp | hp
    · exact v7 p hp
    · rw [List.mem_singleton] at hp
      rw [hp]
      exact hfit

theorem touch_fits (dbNow : Nat) (id title content : String) (p : PostRow) (hp : postFits p)
    (h : p.id = id → textFits title content) :
    postFits (touch dbNow id title content p) := by
  unfold touch
  split
  · next hid =>
    split
    · exact hp
    · exact ⟨hp.1, hp.2.1, h hid⟩
  · exact hp

theorem updatePost_valid (s s' : Store) (dbNow : Nat) (id title content : String)
    (hv : s.Valid) (h : updatePost s dbNow id title content = some s') : s'.Valid := by
  obtain ⟨hs', hfit⟩ := updatePost_some _ _ _ _ _ _ h
  obtain ⟨v1, v2, v3, v4, v5, v6, v7⟩ := hv
  subst hs'
  refine ⟨v1, v2, v3, ?_, ?_, v6, ?_⟩
  · have hids : (s.posts.map (touch dbNow id title content)).map (·.id)
        = s.posts.map (·.id) := by
      rw [List.map_map]
      apply List.map_congr_left
      intro p _
      exact touch_id _ _ _ _ _
    show ((s.posts.map (touch dbNow id title content)).map (·.id)).Nodup
    rw [hids]
    exact v4
  · intro p hp
    obtain ⟨q, hq, rfl⟩ := List.mem_map.mp hp
    rw [touch_author]
    exact v5 q hq
  · intro p hp
    obtain ⟨q, hq, rfl⟩ := List.mem_map.mp hp
    exact touch_fits _ _ _ _ q (v7 q hq) (fun hid => hfit ⟨q, hq, hid⟩)

theorem deletePost_valid (s : Store) (id : String) (hv : s.Valid) : (deletePost s id).Valid := by
  obtain ⟨v1, v2, v3, v4, v5, v6, v7⟩ := hv
  refine ⟨v1, v2, v3, ?_, ?_, v6, ?_⟩
  · exact (List.filter_sublist _).map _ |>.nodup v4
  · intro p hp
    exact v5 p (List.mem_filter.mp hp).1
  · intro p hp
    exact v7 p (List.mem_filter.mp hp).1

theorem register_valid (cfg : Config) (env : Env) (s : Store)
    (username email : Option String) (password : JsValue) (hv : s.Valid) :
    (register cfg env s username email password).2.Valid := by
  unfold register
  split
  · exact hv
  · simp only
    split
    · exact hv
    · split
      · exact hv
      · split
        · exact hv
        · next s' hins => exact insertUser_valid _ _ _ _ _ _ _ hv hins

theorem createPost_valid (env : Env) (s : Store) (user : Identity)
    (title content : Option String) (hv : s.Valid) :
    (createPost env s user title content).2.Valid := by
  unfold createPost
  split
  · exact hv
  · simp only
    split
    · exact hv
    · next s' hins => exact insertPost_valid _ _ _ _ _ _ _ hv hins

theorem updatePostById_valid (env : Env) (s : Store) (user : Identity) (id : String)
    (title content : Option String) (hv : s.Valid) :
    (updatePostById env s user id title content).2.Valid := by
  unfold updatePostById
  split
  · exact hv
  · split
    · exact hv
    · split
      · exact hv
      · split
        · exact hv
        · next s' hup => exact updatePost_valid _ _ _ _ _ _ hv hup

theorem deletePostById_valid (s : Store) (user : Identity) (id : String) (hv : s.Valid) :
    (deletePostById s user id).2.Valid := by
  unfold deletePostById
  split
  · exact hv
  · split
    · exact hv
    · exact deletePost_valid s id hv

theorem app_valid (cfg : Config) (env : Env) (s : Store) (req : Request) (hv : s.Valid) :
    (app cfg env s req).2.Valid := by
  refine app_respects (fun a b => a.Valid → b.Valid) (fun _ h => h) ?_ ?_ cfg env s req hv
  · intro r hr
    simp only [authRoutes, List.mem_cons, List.mem_singleton, List.not_mem_nil, or_false] at hr
    rcases hr with rfl | rfl <;> intro cfg env s req ps hs
    · exact register_valid cfg env s _ _ _ hs
    · show (login cfg env s req.email req.password).2.Valid
      rw [login_store]
      exact hs
  · intro r hr
    simp only [postRoutes, List.mem_cons, List.mem_singleton, List.not_mem_nil, or_false] at hr
    rcases hr with rfl | rfl | rfl | rfl | rfl | rfl | rfl <;> intro cfg env s req ps hs
    · exact hs
    · show (getPostById s _).2.Valid
      rw [getPostById_store]
      exact hs
    · exact guarded_respects (fun a b => a.Valid → b.Valid) cfg env s req _ (fun h => h)
        (fun u h => h) hs
    · exact guarded_respects (fun a b => a.Valid → b.Valid) cfg env s req _ (fun h => h)
        (fun u h => createPost_valid env s u _ _ h) hs
    · exact hs
    · exact guarded_respects (fun a b => a.Valid → b.Valid) cfg env s req _ (fun h => h)
        (fun u h => updatePostById_valid env s u _ _ _ h) hs
    · exact guarded_respects (fun a b => a.Valid → b.Valid) cfg env s req _ (fun h => h)
        (fun u h => deletePostById_valid s u _ h) hs

/-- Every store reached from the freshly created tables satisfies the schema. -/
theorem serve_valid (cfg : Config) (reqs : List (Env × Request)) (s : Store) (hv : s.Valid) :
    (serve cfg s reqs).Valid := by
  induction reqs generalizing s with
  | nil => exact hv
  | cons e rest ih =>
    obtain ⟨env, req⟩ := e
    exact ih _ (app_valid cfg env s req hv)

/-! ## Which handler answers which request -/

theorem app_put (cfg : Config) (env : Env) (s : Store) (req : Request) (id : String)
    (who : Identity) (hm : req.method = .PUT) (hp : req.path = ["api", "posts", id])
    (hid : id ≠ "") (hauth : auth cfg env req.token = .ok who) :
    app cfg env s req = updatePostById env s who id req.title req.content := by
  simp [app, mount, hp, hm, dispatch, authRoutes, postRoutes, matchPath, hid, guarded, hauth]

theorem app_delete (cfg : Config) (env : Env) (s : Store) (req : Request) (id : String)
    (who : Identity) (hm : req.method = .DELETE) (hp : req.path = ["api", "posts", id])
    (hid : id ≠ "") (hauth : auth cfg env req.token = .ok who) :
    app cfg env s req = deletePostById s who id := by
  simp [app, mount, hp, hm, dispatch, authRoutes, postRoutes, matchPath, hid, guarded, hauth]

theorem app_create (cfg : Config) (env : Env) (s : Store) (req : Request) (who : Identity)
    (hm : req.method = .POST) (hp : req.path = ["api", "posts"])
    (hauth : auth cfg env req.token = .ok who) :
    app cfg env s req = createPost env s who req.title req.content := by
  simp [app, mount, hp, hm, dispatch, authRoutes, postRoutes, matchPath, guarded, hauth]

theorem app_get_id (cfg : Config) (env : Env) (s : Store) (req : Request) (id : String)
    (hm : req.method = .GET) (hp : req.path = ["api", "posts", id]) (hid : id ≠ "") :
    app cfg env s req = getPostById s id := by
  simp [app, mount, hp, hm, dispatch, authRoutes, postRoutes, matchPath, hid]

theorem app_get_all (cfg : Config) (env : Env) (s : Store) (req : Request)
    (hm : req.method = .GET) (hp : req.path = ["api", "posts"]) :
    app cfg env s req = getPosts s := by
  simp [app, mount, hp, hm, dispatch, authRoutes, postRoutes, matchPath]

theorem app_register (cfg : Config) (env : Env) (s : Store) (req : Request)
    (hm : req.method = .POST) (hp : req.path = ["api", "auth", "register"]) :
    app cfg env s req = register cfg env s req.username req.email req.password := by
  simp [app, mount, hp, hm, dispatch, authRoutes, matchPath]

theorem app_login (cfg : Config) (env : Env) (s : Store) (req : Request)
    (hm : req.method = .POST) (hp : req.path = ["api", "auth", "login"]) :
    app cfg env s req = login cfg env s req.email req.password := by
  simp [app, mount, hp, hm, dispatch, authRoutes, matchPath]

/-- A token signed by this configuration is accepted by the middleware until it expires,
and yields the claims it was signed with. -/
theorem auth_sign (cfg : Config) (env env' : Env) (who : Identity)
    (h : env'.now < env.now + 86400) :
    auth cfg env' (some (sign cfg env who)) = .ok who := by
  simp [auth, sign, h]

/-! ## Ownership is enforced -/

/-- C1: on a store that satisfies the schema, for a post `P` of the store and an
authenticated identity `B` whose id differs from `P.author_id`, both `PUT /api/posts/P.id`
(with non-empty title and content) and `DELETE /api/posts/P.id` answer 403 and
return the store they were given. -/
theorem C1_non_owner_forbidden (env : Env) (s : Store) (P : PostRow) (B : Identity)
    (title content : Option String) (hv : s.Valid) (hP : P ∈ s.posts)
    (hB : B.id ≠ P.author_id) (ht : falsy title = false) (hc : falsy content = false) :
    updatePostById env s B P.id title content
        = (⟨403, .message "Not authorized to update this post"⟩, s)
      ∧ deletePostById s B P.id
        = (⟨403, .message "Not authorized to delete this post"⟩, s) := by
  have hsel := selectPost_mem s P hv hP
  have hne : P.author_id ≠ B.id := fun h => hB h.symm
  constructor
  · simp [updatePostById, ht, hc, hsel, hne, msg]
  · simp [deletePostById, hsel, hne, msg]

/-- C1 at a concrete input: bob tries to update and to delete the post of alice. -/
theorem C1_non_owner_forbidden_witness :
    updatePostById demoEnv demoStore bobId hello.id (some "X") (some "Y")
        = (⟨403, .message "Not authorized to update this post"⟩, demoStore)
      ∧ deletePostById demoStore bobId hello.id
        = (⟨403, .message "Not authorized to delete this post"⟩, demoStore) :=
  C1_non_owner_forbidden demoEnv demoStore hello bobId (some "X") (some "Y")
    (by decide) (by decide) (by decide) (by decide) (by decide)

/-! ## Route order -/

/-- A token of alice, signed with the default secret. -/
def aliceToken : Token := ⟨aliceId, 0, 86400, "your_jwt_secret"⟩

/-- The request `GET /api/posts/user` carrying the token of alice. -/
def myPostsRequest : Request :=
  ⟨.GET, ["api", "posts", "user"], some aliceToken, none, none, .null, none, none⟩

/-- Every `GET /api/posts/user` is answered by the `/:id` route, registered before
`/user`, with `id = "user"`. -/
theorem get_user_goes_to_id_route (cfg : Config) (env : Env) (s : Store) (req : Request)
    (hm : req.method = .GET) (hp : req.path = ["api", "posts", "user"]) :
    app cfg env s req = getPostById s "user" := by
  simp [app, mount, hp, hm, dispatch, authRoutes, postRoutes, matchPath]

/-- C2: `GET /api/posts/user` with a valid token of alice, on a store that holds one post of
alice.  The middleware accepts the token and the handler of `/user` would answer 200 with that
post, but the router answers through the `/:id` route: 404 `Post not found`. -/
theorem C2_my_posts_route_shadowed :
    auth demoCfg demoEnv myPostsRequest.token = .ok aliceId
      ∧ getMyPosts demoStore aliceId = (⟨200, .posts [joinRow hello alice]⟩, demoStore)
      ∧ app demoCfg demoEnv demoStore myPostsRequest = getPostById demoStore "user"
      ∧ app demoCfg demoEnv demoStore myPostsRequest
          = (⟨404, .message "Post not found"⟩, demoStore) := by
  refine ⟨rfl, by decide, by decide, by decide⟩

/-! ## Registration and login -/

/-- Inputs drawn when alice registers. -/
def aliceEnv : Env := ⟨"u1", "s", 1, 1⟩

/-- The store after alice registered on the empty store. -/
def aliceStore : Store := ⟨[alice], []⟩

/-- C3: a register request whose three fields are present (non-empty) and whose email or
username is already used answers 400 `User already exists` and returns the store unchanged;
and once a registration with an email answered 201, every later registration with that
email, whatever its username and whatever requests were served in between, fails this way. -/
theorem C3_register_duplicate (cfg : Config) (env : Env) (s : Store)
    (username email : Option String) (password : JsValue)
    (hu : falsy username = false) (he : falsy email = false) (hp : password.falsy = false) :
    ((∃ u ∈ s.users, u.email = val email ∨ u.username = val username) →
        register cfg env s username email password
          = (⟨400, .message "User already exists"⟩, s))
      ∧ (∀ (env0 : Env) (s0 : Store) (username0 : Option String) (password0 : JsValue)
          (r0 : Response),
          register cfg env0 s0 username0 email password0 = (r0, s) → r0.status = 201 →
          ∀ between : List (Env × Request),
            register cfg env (serve cfg s between) username email password
              = (⟨400, .message "User already exists"⟩, serve cfg s between)) := by
  have key : ∀ t : Store, (∃ u ∈ t.users, u.email = val email ∨ u.username = val username) →
      register cfg env t username email password
        = (⟨400, .message "User already exists"⟩, t) := by
    intro t ⟨u, hut, hue⟩
    have hpos : (t.users.filter
        (fun u => decide (u.email = val email ∨ u.username = val username))).length > 0 :=
      List.length_pos_of_mem (List.mem_filter.mpr ⟨hut, decide_eq_true hue⟩)
    unfold register
    rw [hu, he, hp]
    simp only [Bool.or_self, Bool.false_eq_true, if_false]
    rw [if_pos hpos]
    rfl
  refine ⟨key s, fun env0 s0 username0 password0 r0 hreg h201 between => ?_⟩
  apply key
  unfold register at hreg
  split at hreg
  · cases hreg; simp [msg] at h201
  · simp only at hreg
    split at hreg
    · cases hreg; simp [msg] at h201
    · split at hreg
      · cases hreg; simp [msg] at h201
      · next hashed _ =>
        split at hreg
        · cases hreg; simp [msg] at h201
        · next s' hins =>
          cases hreg
          obtain ⟨hs', -⟩ := insertUser_some _ _ _ _ _ _ _ hins
          refine ⟨⟨env0.uuid, val username0, val email, hashed, env0.dbNow⟩, ?_, Or.inl rfl⟩
          apply serve_users_mem
          rw [hs']
          simp

/-- C3 at a concrete input: alice registered on the empty store; a registration with her
email under another username fails, at once and after a further request was served. -/
theorem C3_register_duplicate_witness :
    register demoCfg demoEnv aliceStore (some "al") (some "a@x.com") (.str "pw2")
        = (⟨400, .message "User already exists"⟩, aliceStore)
      ∧ register demoCfg demoEnv (serve demoCfg aliceStore [(demoEnv, myPostsRequest)])
          (some "al") (some "a@x.com") (.str "pw2")
        = (⟨400, .message "User already exists"⟩,
            serve demoCfg aliceStore [(demoEnv, myPostsRequest)]) :=
  have h := C3_register_duplicate demoCfg demoEnv aliceStore (some "al") (some "a@x.com")
    (.str "pw2") (by decide) (by decide) (by decide)
  ⟨h.1 (by decide),
    h.2 aliceEnv createTables (some "alice") (.str "pw123456")
      (register demoCfg aliceEnv createTables (some "alice") (some "a@x.com")
        (.str "pw123456")).1 (by decide) (by decide) [(demoEnv, myPostsRequest)]⟩

/-- C4, as stated, fails: both logins have non-empty fields and the password `12345` (a
JSON number).  With an email that matches no user the answer is 400 `Invalid credentials`;
with the email of alice `bcrypt.compare` rejects the non-string, so the password does not
verify, and the handler's `catch` answers 500 `Server error`: the two answers differ. -/
theorem C4_number_password_distinguishes :
    demoStore.Valid
      ∧ falsy (some "z@x.com") = false ∧ falsy (some "a@x.com") = false
      ∧ (JsValue.num 12345).falsy = false
      ∧ (∀ x ∈ demoStore.users, x.email ≠ val (some "z@x.com"))
      ∧ alice ∈ demoStore.users ∧ alice.email = val (some "a@x.com")
      ∧ bcryptCompare demoCfg (.num 12345) alice.password ≠ some true
      ∧ login demoCfg demoEnv demoStore (some "z@x.com") (.num 12345)
          = (⟨400, .message "Invalid credentials"⟩, demoStore)
      ∧ login demoCfg demoEnv demoStore (some "a@x.com") (.num 12345)
          = (⟨500, .message "Server error"⟩, demoStore)
      ∧ (login demoCfg demoEnv demoStore (some "z@x.com") (.num 12345)).1
          ≠ (login demoCfg demoEnv demoStore (some "a@x.com") (.num 12345)).1 := by
  refine ⟨by decide, by decide, by decide, by decide, by decide, by decide, by decide,
    by decide, by decide, by decide, by decide⟩

/-- C4, amended: on a store that satisfies the schema, a login with non-empty fields
whose email matches no user, and a login with a non-empty email that matches a user and a
non-empty string password that the stored hash does not verify, get the same answer,
400 `Invalid credentials`, and return the store unchanged. -/
theorem C4_login_indistinguishable (cfg : Config) (envA envB : Env) (s : Store)
    (emailA : Option String) (passwordA : JsValue) (emailB : Option String)
    (passwordB : String) (u : UserRow) (hv : s.Valid)
    (hA1 : falsy emailA = false) (hA2 : passwordA.falsy = false)
    (hB1 : falsy emailB = false) (hB2 : passwordB ≠ "")
    (hA : ∀ x ∈ s.users, x.email ≠ val emailA)
    (hu : u ∈ s.users) (hue : u.email = val emailB)
    (hup : cfg.compare passwordB u.password = false) :
    login cfg envA s emailA passwordA = (⟨400, .message "Invalid credentials"⟩, s)
      ∧ login cfg envB s emailB (.str passwordB)
          = (⟨400, .message "Invalid credentials"⟩, s)
      ∧ (login cfg envA s emailA passwordA).1
          = (login cfg envB s emailB (.str passwordB)).1 := by
  have hfA : s.users.filter (fun x => decide (x.email = val emailA)) = [] :=
    filter_key_empty UserRow.email s.users (val emailA) hA
  have hfB : s.users.filter (fun x => decide (x.email = val emailB)) = [u] := by
    rw [← hue]
    exact filter_key_singleton UserRow.email s.users u hv.2.2.1 hu
  have h1 : login cfg envA s emailA passwordA
      = (⟨400, .message "Invalid credentials"⟩, s) := by
    simp [login, hA1, hA2, hfA, msg]
  have h2 : login cfg envB s emailB (.str passwordB)
      = (⟨400, .message "Invalid credentials"⟩, s) := by
    simp [login, hB1, JsValue.falsy, hB2, hfB, bcryptCompare, hup, msg]
  exact ⟨h1, h2, by rw [h1, h2]⟩

/-- C4 (amended) at a concrete input: an unknown email with a number as password, and the
email of alice with a wrong string password. -/
theorem C4_login_indistinguishable_witness :
    login demoCfg demoEnv demoStore (some "z@x.com") (.num 12345)
        = (⟨400, .message "Invalid credentials"⟩, demoStore)
      ∧ login demoCfg aliceEnv demoStore (some "a@x.com") (.str "wrong")
        = (⟨400, .message "Invalid credentials"⟩, demoStore)
      ∧ (login demoCfg demoEnv demoStore (some "z@x.com") (.num 12345)).1
        = (login demoCfg aliceEnv demoStore (some "a@x.com") (.str "wrong")).1 :=
  C4_login_indistinguishable demoCfg demoEnv aliceEnv demoStore (some "z@x.com")
    (.num 12345) (some "a@x.com") "wrong" alice (by decide) (by decide)
    (by decide) (by decide) (by decide) (by decide) (by decide) (by decide) (by decide)

/-- C5: when `bcrypt.compare` accepts every password against its own hash and a
registration answers 201 with identity `(id, username, email)`, a login with the same email
and password on the resulting store answers 200, and the identity it returns and the claims
of its token (which expires 24 hours after issue) are that same identity. -/
theorem C5_register_then_login (cfg : Config) (env env' : Env) (s s1 : Store) (r : Response)
    (username email : Option String) (password : JsValue)
    (hver : ∀ pw salt, cfg.compare pw (cfg.hash pw salt) = true)
    (hreg : register cfg env s username email password = (r, s1)) (h201 : r.status = 201) :
    ∃ (who : Identity) (tok tok' : Token),
      who = ⟨env.uuid, val username, val email⟩
        ∧ r.body = .session tok who ∧ tok.claims = who
        ∧ login cfg env' s1 email password = (⟨200, .session tok' who⟩, s1)
        ∧ tok'.claims = who ∧ tok'.exp = tok'.iat + 86400 := by
  unfold register at hreg
  split at hreg
  · cases hreg; simp [msg] at h201
  · next hfields =>
    simp only at hreg
    split at hreg
    · cases hreg; simp [msg] at h201
    · next hnone =>
      split at hreg
      · cases hreg; simp [msg] at h201
      · next hashed hhash =>
        split at hreg
        · cases hreg; simp [msg] at h201
        · next s' hins =>
          cases hreg
          obtain ⟨hs', -⟩ := insertUser_some _ _ _ _ _ _ _ hins
          simp only [Bool.or_eq_true, not_or, Bool.not_eq_true] at hfields
          obtain ⟨⟨-, he⟩, hp⟩ := hfields
          have hold : s.users.filter (fun u => decide (u.email = val email)) = [] := by
            rw [List.filter_eq_nil_iff]
            intro x hx hxe
            apply hnone
            exact List.length_pos_of_mem
              (List.mem_filter.mpr ⟨hx, decide_eq_true (Or.inl (of_decide_eq_true hxe))⟩)
          refine ⟨_, sign cfg env _, sign cfg env' _, rfl, rfl, rfl, ?_, rfl, rfl⟩
          subst hs'
          cases password with
          | str pw =>
            simp only [bcryptHash, Option.some.injEq] at hhash
            subst hhash
            simp [login, he, hp, List.filter_append, hold, bcryptCompare, hver]
          | null => simp [bcryptHash] at hhash
          | bool b => simp [bcryptHash] at hhash
          | num n => simp [bcryptHash] at hhash
          | compound => simp [bcryptHash] at hhash

/-- C5 at a concrete input: alice registers on the empty store and logs in. -/
theorem C5_register_then_login_witness :
    ∃ (who : Identity) (tok tok' : Token),
      who = ⟨aliceEnv.uuid, val (some "alice"), val (some "a@x.com")⟩
        ∧ (register demoCfg aliceEnv createTables (some "alice") (some "a@x.com")
            (.str "pw123456")).1.body = .session tok who ∧ tok.claims = who
        ∧ login demoCfg demoEnv aliceStore (some "a@x.com") (.str "pw123456")
            = (⟨200, .session tok' who⟩, aliceStore)
        ∧ tok'.claims = who ∧ tok'.exp = tok'.iat + 86400 :=
  C5_register_then_login demoCfg aliceEnv demoEnv createTables aliceStore _ (some "alice")
    (some "a@x.com") (.str "pw123456") (by intro pw salt; simp [demoCfg]) (by decide)
    (by decide)

/-! ## Creating, updating, deleting and listing posts -/

/-- C6, as stated, fails: alice, who exists in `users`, posts a non-empty title of 201
characters; the insert is refused by `title VARCHAR(200)` and the answer is 500, not 201. -/
theorem C6_long_title_rejected :
    demoStore.Valid ∧ alice ∈ demoStore.users ∧ alice.id = aliceId.id
      ∧ falsy (some longTitle) = false ∧ falsy (some "World") = false
      ∧ createPost postEnv demoStore aliceId (some longTitle) (some "World")
          = (⟨500, .message "Server error"⟩, demoStore)
      ∧ (createPost postEnv demoStore aliceId (some longTitle) (some "World")).1.status
          ≠ 201 := by
  refine ⟨by decide, by decide, by decide, by decide, by decide, by decide, by decide⟩

/-- C6, amended: on a store that satisfies the schema, for an identity `A` whose id and
username are those of a user row, a non-empty title of at most 200 characters and a
non-empty content of at most 65535 bytes, and a drawn id that is a fresh 36-character
string, `POST /api/posts` answers 201 with a post that carries the submitted title and
content, `author_id = A.id` and `author_name = A.username`; the post is appended to `posts`,
and `GET /api/posts/:id` with the returned id answers 200 with the same body. -/
theorem C6_create_then_get (env : Env) (s : Store) (A : Identity) (u : UserRow)
    (title content : Option String) (hv : s.Valid) (hu : u ∈ s.users) (hid : u.id = A.id)
    (hname : u.username = A.username) (ht : falsy title = false) (hc : falsy content = false)
    (hfit : textFits (val title) (val content)) (hlen : env.uuid.length = 36)
    (hfresh : env.uuid ∉ s.posts.map (·.id)) :
    ∃ (r : JoinedPost) (s' : Store),
      createPost env s A title content = (⟨201, .post r⟩, s')
        ∧ r.id = env.uuid ∧ r.title = val title ∧ r.content = val content
        ∧ r.author_id = A.id ∧ r.author_name = A.username
        ∧ s'.users = s.users ∧ s'.posts = s.posts ++ [r.toPost]
        ∧ getPostById s' r.id = (⟨200, .post r⟩, s') := by
  let P : PostRow := ⟨env.uuid, val title, val content, A.id, env.dbNow, env.dbNow⟩
  let s' : Store := { s with posts := s.posts ++ [P] }
  have hA : A.id ∈ s.users.map (·.id) := List.mem_map.mpr ⟨u, hu, hid⟩
  have hAlen : A.id.length ≤ 36 := by
    rw [← hid]; exact (hv.2.2.2.2.2.1 u hu).1
  have hins : insertPost s env.dbNow env.uuid (val title) (val content) A.id = some s' := by
    unfold insertPost
    simp only
    rw [if_pos ⟨⟨le_of_eq hlen, hAlen, hfit⟩, hfresh, hA⟩]
  have hsel : selectPost s' env.uuid = [P] := by
    have hold : s.posts.filter (fun p => decide (p.id = env.uuid)) = [] :=
      filter_key_empty PostRow.id s.posts env.uuid
        (fun x hx hxe => hfresh (List.mem_map.mpr ⟨x, hx, hxe⟩))
    simp [selectPost, s', List.filter_append, hold, P]
  have hus : s'.users.filter (fun x => decide (P.author_id = x.id)) = [u] :=
    author_singleton s hv u hu A.id hid
  have hjoin := joinPosts_filter_id s' env.uuid P u hsel hus
  refine ⟨joinRow P u, s', ?_, rfl, rfl, rfl, rfl, hname, rfl, rfl, ?_⟩
  · unfold createPost
    rw [ht, hc]
    simp only [Bool.or_self, Bool.false_eq_true, if_false]
    rw [hins]
    simp only
    rw [hjoin]
    rfl
  · unfold getPostById
    have : (joinRow P u).id = env.uuid := rfl
    rw [this]
    simp only
    rw [hjoin]
    rfl

/-- C6 (amended) at a concrete input: alice posts `Hi` / `World`. -/
theorem C6_create_then_get_witness :
    ∃ (r : JoinedPost) (s' : Store),
      createPost postEnv demoStore aliceId (some "Hi") (some "World") = (⟨201, .post r⟩, s')
        ∧ r.id = postEnv.uuid ∧ r.title = val (some "Hi") ∧ r.content = val (some "World")
        ∧ r.author_id = aliceId.id ∧ r.author_name = aliceId.username
        ∧ s'.users = demoStore.users ∧ s'.posts = demoStore.posts ++ [r.toPost]
        ∧ getPostById s' r.id = (⟨200, .post r⟩, s') :=
  C6_create_then_get postEnv demoStore aliceId alice (some "Hi") (some "World") (by decide)
    (by decide) (by decide) (by decide) (by decide) (by decide) (by decide) (by decide)
    (by decide)

/-- C7, as stated, fails: alice, the owner of the post, submits a non-empty title of 201
characters; the update is refused by `title VARCHAR(200)`, the answer is 500, not 200, and
the post keeps its old title. -/
theorem C7_long_title_rejected :
    demoStore.Valid ∧ hello ∈ demoStore.posts ∧ aliceId.id = hello.author_id
      ∧ falsy (some longTitle) = false ∧ falsy (some "World") = false
      ∧ updatePostById demoEnv demoStore aliceId hello.id (some longTitle) (some "World")
          = (⟨500, .message "Server error"⟩, demoStore)
      ∧ (updatePostById demoEnv demoStore aliceId hello.id (some longTitle)
          (some "World")).1.status ≠ 200 := by
  refine ⟨by decide, by decide, by decide, by decide, by decide, by decide, by decide⟩

/-- C7, amended: on a store that satisfies the schema, for a post `P` of the store, the
identity whose id is `P.author_id`, a non-empty title of at most 200 characters and a
non-empty content of at most 65535 bytes, `PUT /api/posts/P.id` answers 200 with the joined
row `r` of the updated post: `r` has the submitted title and content, the id, `author_id`
and `created_at` of `P`, the username of the author as `author_name`, and `updated_at` set to
the database clock when the text changed; in the resulting store the row with id `P.id` is
`r` (without `author_name`), every other post is unchanged and `users` is unchanged. -/
theorem C7_owner_update (env : Env) (s : Store) (P : PostRow) (A : Identity)
    (title content : Option String) (hv : s.Valid) (hP : P ∈ s.posts)
    (hA : A.id = P.author_id) (ht : falsy title = false) (hc : falsy content = false)
    (hfit : textFits (val title) (val content)) :
    ∃ (r : JoinedPost) (s' : Store),
      updatePostById env s A P.id title content = (⟨200, .post r⟩, s')
        ∧ r.id = P.id ∧ r.title = val title ∧ r.content = val content
        ∧ r.author_id = P.author_id ∧ r.created_at = P.created_at
        ∧ r.updated_at = (if P.title = val title ∧ P.content = val content
            then P.updated_at else env.dbNow)
        ∧ (∃ u ∈ s.users, u.id = P.author_id ∧ r.author_name = u.username)
        ∧ s'.posts = s.posts.map (fun q => if q.id = P.id then r.toPost else q)
        ∧ r.toPost ∈ s'.posts
        ∧ s'.users = s.users := by
  let P' : PostRow := touch env.dbNow P.id (val title) (val content) P
  let s' : Store :=
    { s with posts := s.posts.map (touch env.dbNow P.id (val title) (val content)) }
  obtain ⟨u, hu, hup⟩ := List.mem_map.mp (hv.2.2.2.2.1 P hP)
  have hsel := selectPost_mem s P hv hP
  have hupd : updatePost s env.dbNow P.id (val title) (val content) = some s' := by
    unfold updatePost
    rw [if_neg (fun h => h.2 hfit)]
  have hsel' : selectPost s' P.id = [P'] := by
    show (s.posts.map (touch env.dbNow P.id (val title) (val content))).filter
      (fun p => decide (p.id = P.id)) = [P']
    rw [filter_id_map_touch]
    unfold selectPost at hsel
    rw [hsel]
    rfl
  have hus : s'.users.filter (fun x => decide (P'.author_id = x.id)) = [u] := by
    show s.users.filter (fun x => decide (P'.author_id = x.id)) = [u]
    rw [show P'.author_id = P.author_id from touch_author _ _ _ _ _]
    exact author_singleton s hv u hu P.author_id hup
  have hjoin := joinPosts_filter_id s' P.id P' u hsel' hus
  have hmap : s'.posts = s.posts.map (fun q => if q.id = P.id then P' else q) := by
    show s.posts.map (touch env.dbNow P.id (val title) (val content)) = _
    apply List.map_congr_left
    intro q hq
    by_cases hqP : q.id = P.id
    · have hqmem : q ∈ selectPost s P.id := List.mem_filter.mpr ⟨hq, decide_eq_true hqP⟩
      rw [hsel, List.mem_singleton] at hqmem
      rw [if_pos hqP, hqmem]
    · rw [if_neg hqP, touch_other _ _ _ _ _ hqP]
  refine ⟨joinRow P' u, s', ?_, touch_id _ _ _ _ _, (touch_text _ _ _ _).1,
    (touch_text _ _ _ _).2, touch_author _ _ _ _ _, touch_created _ _ _ _ _,
    touch_updated _ _ _ _, ⟨u, hu, hup, rfl⟩, hmap, ?_, rfl⟩
  · unfold updatePostById
    rw [ht, hc]
    simp only [Bool.or_self, Bool.false_eq_true, if_false]
    rw [hsel]
    simp only
    rw [if_neg (fun h => h hA.symm), hupd]
    simp only
    rw [hjoin]
    rfl
  · have hmem : P' ∈ selectPost s' P.id := by rw [hsel']; exact List.mem_singleton_self _
    exact (List.mem_filter.mp hmem).1

/-- C7 (amended) at a concrete input: alice rewrites her post. -/
theorem C7_owner_update_witness :
    ∃ (r : JoinedPost) (s' : Store),
      updatePostById demoEnv demoStore aliceId hello.id (some "Hey") (some "There")
          = (⟨200, .post r⟩, s')
        ∧ r.id = hello.id ∧ r.title = val (some "Hey") ∧ r.content = val (some "There")
        ∧ r.author_id = hello.author_id ∧ r.created_at = hello.created_at
        ∧ r.updated_at = (if hello.title = val (some "Hey") ∧ hello.content = val (some "There")
            then hello.updated_at else demoEnv.dbNow)
        ∧ (∃ u ∈ demoStore.users, u.id = hello.author_id ∧ r.author_name = u.username)
        ∧ s'.posts = demoStore.posts.map (fun q => if q.id = hello.id then r.toPost else q)
        ∧ r.toPost ∈ s'.posts
        ∧ s'.users = demoStore.users :=
  C7_owner_update demoEnv demoStore hello aliceId (some "Hey") (some "There") (by decide)
    (by decide) (by decide) (by decide) (by decide) (by decide)

/-- C8: on a store that satisfies the schema, for a post `P` of the store and the identity
whose id is `P.author_id`, `DELETE /api/posts/P.id` answers 200 `Post deleted`; the resulting
store has no post with id `P.id`, keeps exactly the other posts, and keeps `users`; a
following `GET /api/posts/P.id` answers 404; and `DELETE` on an id that no post has answers
404 and returns the store unchanged. -/
theorem C8_owner_delete (s : Store) (P : PostRow) (A B : Identity) (missing : String)
    (hv : s.Valid) (hP : P ∈ s.posts) (hA : A.id = P.author_id)
    (hmiss : ∀ q ∈ s.posts, q.id ≠ missing) :
    ∃ s' : Store,
      deletePostById s A P.id = (⟨200, .message "Post deleted"⟩, s')
        ∧ (∀ q ∈ s'.posts, q.id ≠ P.id)
        ∧ s'.posts = s.posts.filter (fun q => decide (q ≠ P))
        ∧ s'.users = s.users
        ∧ getPostById s' P.id = (⟨404, .message "Post not found"⟩, s')
        ∧ deletePostById s B missing = (⟨404, .message "Post not found"⟩, s) := by
  have hsel := selectPost_mem s P hv hP
  have hgone : ∀ q ∈ (deletePost s P.id).posts, q.id ≠ P.id := by
    intro q hq
    exact of_decide_eq_true (List.mem_filter.mp hq).2
  have hsel' : selectPost (deletePost s P.id) P.id = [] :=
    filter_key_empty PostRow.id _ P.id hgone
  refine ⟨deletePost s P.id, ?_, hgone, ?_, rfl, ?_, ?_⟩
  · unfold deletePostById
    rw [hsel]
    simp only
    rw [if_neg (fun h => h hA.symm)]
    rfl
  · show s.posts.filter (fun p => decide (p.id ≠ P.id)) = _
    apply List.filter_congr
    intro q hq
    by_cases hqP : q.id = P.id
    · have hqmem : q ∈ selectPost s P.id := List.mem_filter.mpr ⟨hq, decide_eq_true hqP⟩
      rw [hsel, List.mem_singleton] at hqmem
      simp [hqmem]
    · have hne : q ≠ P := fun h => hqP (by rw [h])
      simp [hqP, hne]
  · unfold getPostById
    simp only
    rw [joinPosts_filter_id_none _ _ hsel']
    rfl
  · unfold deletePostById
    rw [show selectPost s missing = [] from filter_key_empty PostRow.id _ missing hmiss]
    rfl

/-- C8 at a concrete input: alice deletes her post; bob deletes an id that does not exist. -/
theorem C8_owner_delete_witness :
    ∃ s' : Store,
      deletePostById demoStore aliceId hello.id = (⟨200, .message "Post deleted"⟩, s')
        ∧ (∀ q ∈ s'.posts, q.id ≠ hello.id)
        ∧ s'.posts = demoStore.posts.filter (fun q => decide (q ≠ hello))
        ∧ s'.users = demoStore.users
        ∧ getPostById s' hello.id = (⟨404, .message "Post not found"⟩, s')
        ∧ deletePostById demoStore bobId "nope"
            = (⟨404, .message "Post not found"⟩, demoStore) :=
  C8_owner_delete demoStore hello aliceId bobId "nope" (by decide) (by decide) (by decide)
    (by decide)

/-- C9: every request served by the application keeps usernames pairwise distinct and
emails pairwise distinct, and so both hold in every store reached from the freshly created
tables by serving any sequence of requests one at a time. -/
theorem C9_users_unique (cfg : Config) :
    (∀ (env : Env) (s : Store) (req : Request),
        UsersUnique s → UsersUnique (app cfg env s req).2)
      ∧ ∀ reqs : List (Env × Request), UsersUnique (serve cfg createTables reqs) := by
  have step : ∀ (env : Env) (s : Store) (req : Request),
      UsersUnique s → UsersUnique (app cfg env s req).2 :=
    fun env s req hs => (app_usersStep cfg env s req).unique hs
  refine ⟨step, fun reqs => ?_⟩
  have all : ∀ (l : List (Env × Request)) (s : Store), UsersUnique s →
      UsersUnique (serve cfg s l) := by
    intro l
    induction l with
    | nil => intro s hs; exact hs
    | cons e rest ih =>
      intro s hs
      obtain ⟨env, req⟩ := e
      exact ih _ (step env s req hs)
  exact all reqs createTables ⟨List.nodup_nil, List.nodup_nil⟩

/-- C10: on a store that satisfies the schema (in particular every `author_id` references
a user), `GET /api/posts` answers 200 with rows that are, up to order, exactly the posts of
the store, each once, each carrying the username of its author as `author_name`, and in
which `created_at` never increases from a row to the next (nor to any later row). -/
theorem C10_list_all (s : Store) (hv : s.Valid) :
    ∃ rows : List JoinedPost,
      getPosts s = (⟨200, .posts rows⟩, s)
        ∧ (rows.map JoinedPost.toPost).Perm s.posts
        ∧ (∀ r ∈ rows, ∃ u ∈ s.users, u.id = r.author_id ∧ r.author_name = u.username)
        ∧ rows.Chain' (fun a b => a.created_at ≥ b.created_at)
        ∧ rows.Pairwise (fun a b => a.created_at ≥ b.created_at) := by
  have hperm : (orderByCreatedDesc (joinPosts s)).Perm (joinPosts s) :=
    List.perm_insertionSort createdDesc (joinPosts s)
  have hsorted : (orderByCreatedDesc (joinPosts s)).Pairwise createdDesc :=
    List.sorted_insertionSort createdDesc (joinPosts s)
  refine ⟨orderByCreatedDesc (joinPosts s), rfl, ?_, ?_, ?_, hsorted⟩
  · rw [← joinPosts_toPost s hv]
    exact hperm.map _
  · intro r hr
    exact joinPosts_author s r (hperm.subset hr)
  · exact List.Pairwise.chain' hsorted

/-- C10 at a concrete input: a store with three posts of two authors, created at times
3, 8 and 5; the answer lists them as 8, 5, 3. -/
theorem C10_list_all_witness :
    busyStore.Valid
      ∧ (∃ rows : List JoinedPost,
          getPosts busyStore = (⟨200, .posts rows⟩, busyStore)
            ∧ (rows.map JoinedPost.toPost).Perm busyStore.posts
            ∧ (∀ r ∈ rows, ∃ u ∈ busyStore.users,
                u.id = r.author_id ∧ r.author_name = u.username)
            ∧ rows.Chain' (fun a b => a.created_at ≥ b.created_at)
            ∧ rows.Pairwise (fun a b => a.created_at ≥ b.created_at))
      ∧ getPosts busyStore
          = (⟨200, .posts [joinRow news bob, joinRow notes alice, joinRow hello alice]⟩,
              busyStore)
      ∧ (joinPosts busyStore).map (·.created_at) = [3, 8, 5] :=
  ⟨by decide, C10_list_all busyStore (by decide), by decide, by decide⟩

end Blogspot
